import Mathlib

/-!
Verification development for the mini data-loss-prevention (DLP) agent.

The embedding models `src/main.py` (the authoritative agent): the content
classifier `contains_sensitive_data` with its four regular-expression rules,
the write-stability detector `wait_for_file_stable`, the processed-path
deduplication cache, the alert store `add_alert`, the file-event handler
`DLPHandler._handle_file`, and the dashboard restore operation `allow_file`.

Modelling conventions:
- An absolute, canonicalized path is a list of components (`FPath`).
  `os.path.commonpath([a, b]) == a` on absolute paths is component-list
  containment, i.e. `a.isPrefixOf b`; `os.path.abspath(p).lower()` is
  component-wise ASCII lowercasing (`normLower`); `os.path.basename` is the
  last component; `os.path.dirname` is `List.dropLast`.
- File contents are `List Char` (the agent reads text with
  `errors="ignore"`, so classification operates on decoded characters).
- The filesystem is an association list from paths to file records plus a
  set of existing directories.  A file record `some content` is readable;
  `none` models a present file whose open/read raises (locked, permission
  denied); an absent key models a missing path.  `shutil.move` is modelled
  as remove-then-insert and succeeds exactly when the source is a file in
  the map; a failing move (source already gone) leaves the map unchanged,
  matching the caught exception in the source.
- Wall-clock instants (`time.time()`, `datetime.now()`) are a `Nat` of
  epoch seconds passed explicitly as `now`.
- Character classes are the ASCII readings of the Python regex classes
  (`\d`, `\w`, `\s`); every concrete input used in the theorems below is
  ASCII, where the two semantics agree.
-/

/-! ## Paths -/

abbrev FPath := List String

/-- Component-wise ASCII lowercasing, modelling `os.path.abspath(p).lower()`
on an already-absolute path. -/
def pyLower (s : String) : String := String.mk (s.data.map Char.toLower)

/-- Lowercased path, as produced by the handler's scope check. -/
def normLower (p : FPath) : FPath := p.map pyLower

/-- Last path component, modelling `os.path.basename`. -/
def basename (p : FPath) : String := p.getLast?.getD ""

/-! ## Character classes (ASCII readings of the Python regex classes) -/

/-- `\d` -/
def isDigitChar (c : Char) : Bool := c.isDigit

/-- `\w`: letters, digits and underscore. -/
def isWordChar (c : Char) : Bool := c.isAlphanum || c = '_'

/-- `\s`: the ASCII whitespace characters recognised by Python's `\s`. -/
def isSpaceChar (c : Char) : Bool :=
  c = ' ' || c = '\t' || c = '\n' || c = '\r' || c = '\x0b' || c = '\x0c'

/-- A word boundary `\b` to the left of a word character: holds when there is
no previous character or the previous character is not a word character. -/
def leftNonWord : Option Char → Bool
  | none => true
  | some c => !isWordChar c

/-- A word boundary `\b` right after a word character: the rest of the input
is empty or starts with a non-word character. -/
def noWordAhead : List Char → Bool
  | [] => true
  | c :: _ => !isWordChar c

/-! ## Generic position scan

`searchFrom p prev l` tries the position predicate `p` at every suffix of
`l`, handing it the character immediately before that suffix (for word
boundaries); it models `re.search` existence. -/

def searchFrom (p : Option Char → List Char → Bool) : Option Char → List Char → Bool
  | prev, [] => p prev []
  | prev, c :: cs => p prev (c :: cs) || searchFrom p (some c) cs

/-! ## Rule "Aadhaar": `\b\d{4}\s\d{4}\s\d{4}\b` -/

/-- Consume exactly `n` digits, returning the rest. -/
def eatDigits : Nat → List Char → Option (List Char)
  | 0, l => some l
  | _ + 1, [] => none
  | n + 1, c :: cs => if isDigitChar c then eatDigits n cs else none

/-- Match `\d{4}\s\d{4}\s\d{4}\b` at the head of the input. -/
def aadhaarAt (l : List Char) : Bool :=
  match eatDigits 4 l with
  | none => false
  | some l1 =>
    match l1 with
    | [] => false
    | w1 :: l2 =>
      isSpaceChar w1 &&
        (match eatDigits 4 l2 with
         | none => false
         | some l3 =>
           match l3 with
           | [] => false
           | w2 :: l4 =>
             isSpaceChar w2 &&
               (match eatDigits 4 l4 with
                | none => false
                | some l5 => noWordAhead l5))

def matchAadhaar (l : List Char) : Bool :=
  searchFrom (fun prev t => leftNonWord prev && aadhaarAt t) none l

/-! ## Rule "Email": `[a-zA-Z0-9._%+-]+@[a-zA-Z0-9.-]+\.[a-z]{2,}` (IGNORECASE) -/

def isEmailLocal (c : Char) : Bool :=
  c.isAlphanum || c = '.' || c = '_' || c = '%' || c = '+' || c = '-'

def isEmailDomain (c : Char) : Bool := c.isAlphanum || c = '.' || c = '-'

/-- `[a-z]{2,}` under IGNORECASE: two letters suffice for a match to exist. -/
def twoAlpha : List Char → Bool
  | a :: b :: _ => a.isAlpha && b.isAlpha
  | _ => false

/-- After the `@`: some domain characters, then a literal dot, then at least
two letters.  `bcnt` counts domain characters consumed so far (the class
`[a-zA-Z0-9.-]` itself contains `.`, so each dot may serve either role). -/
def emailTail : List Char → Nat → Bool
  | [], _ => false
  | c :: r, bcnt =>
    (c = '.' && decide (1 ≤ bcnt) && twoAlpha r) || (isEmailDomain c && emailTail r (bcnt + 1))

/-- Local-part characters up to the `@`. -/
def emailAfterLocal : List Char → Bool
  | [] => false
  | c :: r => if c = '@' then emailTail r 0 else isEmailLocal c && emailAfterLocal r

def emailAt : List Char → Bool
  | [] => false
  | c :: r => isEmailLocal c && emailAfterLocal r

def matchEmail (l : List Char) : Bool :=
  searchFrom (fun _ t => emailAt t) none l

/-! ## Rule "Credit Card": `\b(?:\d[ -]*?){13,16}\b` -/

def isSep (c : Char) : Bool := c = ' ' || c = '-'

/-- Scan the repetition `(?:\d[ -]*?){13,16}` after its first digit: `k`
groups are complete, `lc` is the last consumed character.  The match may
close at any point where 13–16 groups are complete and a word boundary
follows. -/
def ccRun : List Char → Nat → Char → Bool
  | [], k, lc => decide (13 ≤ k) && decide (k ≤ 16) && isWordChar lc
  | c :: r, k, lc =>
    (decide (13 ≤ k) && decide (k ≤ 16) && (isWordChar lc != isWordChar c))
      || (isDigitChar c && decide (k < 16) && ccRun r (k + 1) c)
      || (isSep c && ccRun r k c)

def ccAt : List Char → Bool
  | [] => false
  | c :: r => isDigitChar c && ccRun r 1 c

def matchCreditCard (l : List Char) : Bool :=
  searchFrom (fun prev t => leftNonWord prev && ccAt t) none l

/-! ## Rule "Confidential": `\b(confidential|secret|restricted)\b` (IGNORECASE) -/

/-- Consume the literal word `w` (given lowercase) case-insensitively. -/
def eatCI : List Char → List Char → Option (List Char)
  | [], l => some l
  | _ :: _, [] => none
  | w :: ws, c :: cs => if c.toLower = w then eatCI ws cs else none

def matchKeyword (w l : List Char) : Bool :=
  match eatCI w l with
  | none => false
  | some rest => noWordAhead rest

def confAt (l : List Char) : Bool :=
  matchKeyword "confidential".data l || matchKeyword "secret".data l ||
    matchKeyword "restricted".data l

def matchConfidential (l : List Char) : Bool :=
  searchFrom (fun prev t => leftNonWord prev && confAt t) none l

/-! ## The classifier -/

/-- The `PATTERNS` dict of `main.py`, in its (insertion-ordered) iteration
order, each regex replaced by its matcher. -/
def PATTERNS : List (String × (List Char → Bool)) :=
  [("Aadhaar", matchAadhaar), ("Email", matchEmail),
   ("Credit Card", matchCreditCard), ("Confidential", matchConfidential)]

/-- `f.read(5 * 1024 * 1024)`: at most 5 MiB of characters. -/
def SAMPLE_CAP : Nat := 5 * 1024 * 1024

/-- Prefix of at most `n` characters (structural on the content, so that
kernel evaluation is linear in the content, not in `n`). -/
def takeChars : List Char → Nat → List Char
  | [], _ => []
  | c :: cs, n =>
    match n with
    | 0 => []
    | m + 1 => c :: takeChars cs m

/-- First rule of `PATTERNS` whose pattern matches the content; `none` when
no rule matches.  Models the `for label, pat in PATTERNS.items()` loop with
`re.findall(pat, content, re.IGNORECASE)`. -/
def classifyContent (content : List Char) : Option String :=
  (PATTERNS.find? (fun rule => rule.2 content)).map (fun rule => rule.1)

/-- Classification of a file's content: the rules applied to the sampled
(at most 5 MiB) prefix. -/
def classifySample (content : List Char) : Option String :=
  classifyContent (takeChars content SAMPLE_CAP)

example : classifySample "Contact: jane.doe42@example.org".data = some "Email" := by decide
example : classifySample "this is CONFIDENTIAL stuff".data = some "Confidential" := by decide
example : classifySample "my card 4111 1111 1111 1111 ok".data = some "Aadhaar" := by decide
example : classifySample "card 4111-1111-1111-1111 ok".data = some "Credit Card" := by decide
example : classifySample "tel: 12-34-56-78-90-12-3x".data = none := by decide
example : classifySample "id 1234 5678 9012 here".data = some "Aadhaar" := by decide
example : classifySample "nothing sensitive here".data = none := by decide
example : classifySample "confidentiality".data = none := by decide
example : classifySample "12345678901234567".data = none := by decide

/-! ## Filesystem and agent state -/

/-- The filesystem: `files` maps a path to `some content` (readable file) or
`none` (present file whose open/read raises); `dirs` is the set of existing
directories. -/
structure FSys where
  files : List (FPath × Option (List Char))
  dirs : List FPath
deriving DecidableEq

def fsGet (fs : FSys) (p : FPath) : Option (Option (List Char)) :=
  (fs.files.find? (fun e => e.1 == p)).map (fun e => e.2)

def fsRemove (fs : FSys) (p : FPath) : FSys :=
  { fs with files := fs.files.filter (fun e => !(e.1 == p)) }

def fsSet (fs : FSys) (p : FPath) (c : Option (List Char)) : FSys :=
  { fs with files := (p, c) :: (fsRemove fs p).files }

/-- `shutil.move`: succeeds exactly when the source is a file in the map;
when the source is already gone the raised exception is caught by the caller
and the filesystem is unchanged.  (Directory moves are not modelled; the
pipeline only moves regular files.) -/
def moveFile (fs : FSys) (src dst : FPath) : FSys :=
  match fsGet fs src with
  | none => fs
  | some c => fsSet (fsRemove fs src) dst c

/-- `os.path.exists`. -/
def existsPath (fs : FSys) (p : FPath) : Bool :=
  (fsGet fs p).isSome || fs.dirs.contains p

/-- One entry of the `alerts` list (`main.py`'s alert dict). -/
structure Alert where
  file : FPath
  rule : String
  time : Nat
  status : String
  origin : Option FPath
  originalPath : Option FPath
  fileSize : Option Nat
deriving DecidableEq

/-- The configuration constants of `main.py`. -/
structure Cfg where
  watchPaths : List FPath
  quarantineFolder : FPath
  tempTestFolder : FPath
  watchFolder : FPath
deriving DecidableEq

/-- The mutable module state: the filesystem together with the persisted
`state` dict (`alerts`, `whitelist`, `policy_mode`) and the in-memory
`_processed_cache`. -/
structure St where
  fs : FSys
  alerts : List Alert
  whitelist : List FPath
  processed : List (FPath × Nat)
  policyMode : String
deriving DecidableEq

/-! ## Processed cache (deduplicator) -/

def PROCESSED_TTL : Nat := 10

def lookupProc (m : List (FPath × Nat)) (k : FPath) : Option Nat :=
  (m.find? (fun e => e.1 == k)).map (fun e => e.2)

def setProc (m : List (FPath × Nat)) (k : FPath) (t : Nat) : List (FPath × Nat) :=
  (k, t) :: m.filter (fun e => !(e.1 == k))

/-- The opportunistic sweep inside `_is_recently_processed`: drop entries
older than `PROCESSED_TTL * 5`. -/
def gcProcessed (m : List (FPath × Nat)) (now : Nat) : List (FPath × Nat) :=
  m.filter (fun e => !(decide (now - e.2 > PROCESSED_TTL * 5)))

/-- `_is_recently_processed`: a pure read of the cache (it does NOT insert a
claim).  Returns the answer and the state after the opportunistic sweep
(the sweep runs only on the not-recent branch, as in the source). -/
def is_recently_processed (st : St) (p : FPath) (now : Nat) : Bool × St :=
  match lookupProc st.processed (normLower p) with
  | some t =>
    if t ≠ 0 ∧ now - t < PROCESSED_TTL then (true, st)
    else (false, { st with processed := gcProcessed st.processed now })
  | none => (false, { st with processed := gcProcessed st.processed now })

/-- `_mark_processed`. -/
def mark_processed (st : St) (p : FPath) (now : Nat) : St :=
  { st with processed := setProc st.processed (normLower p) now }

/-! ## Path guards -/

def is_quarantine_path (cfg : Cfg) (p : FPath) : Bool :=
  cfg.quarantineFolder.isPrefixOf p

/-- `_is_temp_test_path`: containment checked only when the temp-test folder
itself exists. -/
def is_temp_test_path (cfg : Cfg) (fs : FSys) (p : FPath) : Bool :=
  existsPath fs cfg.tempTestFolder && cfg.tempTestFolder.isPrefixOf p

/-- `^\d+_` applied after the first character: digits until an underscore. -/
def digitsThenUnderscore : List Char → Bool
  | [] => false
  | c :: cs => if c = '_' then true else isDigitChar c && digitsThenUnderscore cs

/-- `_looks_like_quarantine_name`: `re.match(r"^\d+_", basename)`. -/
def looks_like_quarantine_name (p : FPath) : Bool :=
  match (basename p).data with
  | [] => false
  | c :: cs => isDigitChar c && digitsThenUnderscore cs

/-- `is_whitelisted`: quarantine-internal paths are implicitly whitelisted;
otherwise a path is whitelisted when some whitelist entry is equal to it or
an ancestor of it (no case folding here, as in the source). -/
def is_whitelisted (cfg : Cfg) (st : St) (p : FPath) : Bool :=
  is_quarantine_path cfg p || st.whitelist.any (fun w => w.isPrefixOf p)

/-- The handler's critical scope check: the lowercased absolute path must lie
under some configured watch root. -/
def inScope (cfg : Cfg) (p : FPath) : Bool :=
  cfg.watchPaths.any (fun w => (normLower w).isPrefixOf (normLower p))

/-- `_identify_origin`: the first watch root containing the path. -/
def identify_origin (cfg : Cfg) (p : FPath) : Option FPath :=
  cfg.watchPaths.find? (fun w => (normLower w).isPrefixOf (normLower p))

/-- `get_file_size`, reduced to the byte count it formats; `none` is the
"N/A" branch. -/
def get_file_size (fs : FSys) (p : FPath) : Option Nat :=
  match fsGet fs p with
  | some (some c) => some c.length
  | _ => none

/-! ## Alert store -/

/-- `add_alert`: insert at the front, keep only the most recent 200.  (The
synchronous `save_state` persistence and the tray notification are I/O and
are not part of the state model.) -/
def add_alert (st : St) (a : Alert) : St :=
  { st with alerts := (a :: st.alerts).take 200 }

/-- The `state["alerts"][0]["file"] = dest` fix-up after a quarantine move
(guarded by `if state["alerts"]`). -/
def setHeadAlertFile (st : St) (dest : FPath) : St :=
  { st with
    alerts :=
      match st.alerts with
      | [] => []
      | a :: rest => { a with file := dest } :: rest }

/-! ## Classification entry point -/

/-- `contains_sensitive_data` of `main.py`.  The `wait_for_file_stable` call
inside it only delays; its boolean result is ignored by the source (a
warning is printed and scanning proceeds), so it does not appear in this
pure model — the stability loop itself is modelled separately below. -/
def contains_sensitive_data (cfg : Cfg) (fs : FSys) (p : FPath) : Option String :=
  if is_quarantine_path cfg p || is_temp_test_path cfg fs p ||
      looks_like_quarantine_name p then none
  else if existsPath fs p then
    match fsGet fs p with
    | some (some content) => classifySample content
    | _ => none
  else none

/-! ## The event handler `DLPHandler._handle_file`

The handler is split at its lock boundaries into three atomic phases so that
the sequential handler and interleavings of two concurrent handler runs are
both derived from the same step function:
- `PC.start`: the scope / temp-test / quarantine guards, the deduplication
  read, the existence, whitelist and quarantine-name checks (all reads);
- `PC.classify`: `contains_sensitive_data` (a read of the filesystem);
- `PC.act`: `_mark_processed`, the alert construction and `add_alert`, and
  in block mode the quarantine move plus the alert path fix-up. -/

inductive PC where
  | start
  | classify
  | act (rule : String)
  | done
deriving DecidableEq

def stepThread (cfg : Cfg) (st : St) (pc : PC) (p : FPath) (now : Nat) : St × PC :=
  match pc with
  | .start =>
    if inScope cfg p then
      if is_temp_test_path cfg st.fs p then (st, .done)
      else if is_quarantine_path cfg p then (st, .done)
      else
        let pr := is_recently_processed st p now
        if pr.1 then (pr.2, .done)
        else if existsPath pr.2.fs p then
          if is_whitelisted cfg pr.2 p then (mark_processed pr.2 p now, .done)
          else if looks_like_quarantine_name p then (mark_processed pr.2 p now, .done)
          else (pr.2, .classify)
        else (mark_processed pr.2 p now, .done)
    else (st, .done)
  | .classify =>
    match contains_sensitive_data cfg st.fs p with
    | none => (st, .done)
    | some r => (st, .act r)
  | .act r =>
    let st1 := mark_processed st p now
    let mode := st1.policyMode
    let alert : Alert :=
      { file := p, rule := r, time := now, status := mode,
        origin := identify_origin cfg p, originalPath := some p,
        fileSize := get_file_size st1.fs p }
    let st2 := add_alert st1 alert
    if mode = "block" then
      match fsGet st2.fs p with
      | none => (st2, .done)
      | some c =>
        let dest := cfg.quarantineFolder ++ [Nat.repr now ++ "_" ++ basename p]
        let st3 := { st2 with fs := fsSet (fsRemove st2.fs p) dest c }
        (mark_processed (setHeadAlertFile st3 dest) dest now, .done)
    else (st2, .done)
  | .done => (st, .done)

/-- `DLPHandler._handle_file`: the three phases run to completion in
sequence (a thread reaches `PC.done` after at most three steps). -/
def handle_file (cfg : Cfg) (st : St) (p : FPath) (now : Nat) : St :=
  let r1 := stepThread cfg st .start p now
  let r2 := stepThread cfg r1.1 r1.2 p now
  (stepThread cfg r2.1 r2.2 p now).1

/-- Interleave two handler runs (for the same path and instant) according to
`sched`: `false` steps the first thread, `true` the second. -/
def runTwo (cfg : Cfg) : List Bool → St → PC → PC → FPath → Nat → St
  | [], st, _, _, _, _ => st
  | b :: rest, st, pa, pb, p, now =>
    if b then
      let r := stepThread cfg st pb p now
      runTwo cfg rest r.1 pa r.2 p now
    else
      let r := stepThread cfg st pa p now
      runTwo cfg rest r.1 r.2 pb p now

/-! ## The dashboard restore operation `allow_file` -/

/-- The lookup loop at the top of `allow_file`: the `original_path` recorded
in the first alert whose `file` equals the posted path. -/
def firstAlertOriginal (st : St) (fpath : FPath) : Option FPath :=
  match st.alerts.find? (fun a => a.file == fpath) with
  | none => none
  | some a => a.originalPath

/-- `allow_file` (`main.py`): restore a (typically quarantined) file to its
recorded original path when that path's directory still exists, else to the
primary watch folder; whitelist the destination; drop every alert that
references the posted path; mark the destination processed.  When the posted
path is missing (or empty) nothing happens. -/
def allow_file (cfg : Cfg) (st : St) (fpath : FPath) (now : Nat) : St :=
  let original? := firstAlertOriginal st fpath
  if fpath.isEmpty then st
  else if existsPath st.fs fpath then
    let dest :=
      match original? with
      | some op => if existsPath st.fs op.dropLast then op else cfg.watchFolder ++ [basename fpath]
      | none => cfg.watchFolder ++ [basename fpath]
    let st1 := { st with fs := moveFile st.fs fpath dest }
    let st2 :=
      { st1 with
        whitelist := if st1.whitelist.contains dest then st1.whitelist else st1.whitelist ++ [dest],
        alerts := st1.alerts.filter (fun a => !(a.file == fpath)) }
    mark_processed st2 dest now
  else st

/-! ## The stability detector `wait_for_file_stable` (`main.py`)

The loop is driven by what each poll tick observes about the file, so the
embedding takes the finite sequence of per-tick observations as input; the
end of the list is the timeout.  `Obs.gone` is the `not os.path.exists`
branch (sleep and continue), `Obs.locked` is the caught `OSError /
PermissionError` (reset the consecutive count), `Obs.size n` is a
successful size reading. -/

inductive Obs where
  | gone
  | locked
  | size (n : Nat)
deriving DecidableEq

/-- The polling loop body: `last` is `last_size` (initially `-1`), `cnt` is
`stable_count`.  A reading equal to the previous one and positive increments
the count and returns `True` at the third consecutive confirmation; any
other reading resets the count; a locked poll resets the count but not
`last_size`; exhausting the polls (timeout) returns `last_size > 0`. -/
def waitLoop : List Obs → Int → Nat → Bool
  | [], last, _ => decide (0 < last)
  | .gone :: rest, last, cnt => waitLoop rest last cnt
  | .locked :: rest, last, _ => waitLoop rest last 0
  | .size n :: rest, last, cnt =>
    if (n : Int) = last ∧ 0 < n then
      (if 3 ≤ cnt + 1 then true else waitLoop rest (n : Int) (cnt + 1))
    else waitLoop rest (n : Int) 0

/-- `wait_for_file_stable`, as a function of the observation sequence. -/
def wait_for_file_stable (obs : List Obs) : Bool := waitLoop obs (-1) 0

/-- Helper mirroring `waitLoop` but recording only whether the loop returns
`True` early (through the `stable_count >= 3` branch) rather than through
the timeout fallback. -/
def waitEarly : List Obs → Int → Nat → Bool
  | [], _, _ => false
  | .gone :: rest, last, cnt => waitEarly rest last cnt
  | .locked :: rest, last, _ => waitEarly rest last 0
  | .size n :: rest, last, cnt =>
    if (n : Int) = last ∧ 0 < n then
      (if 3 ≤ cnt + 1 then true else waitEarly rest (n : Int) (cnt + 1))
    else waitEarly rest (n : Int) 0

/-- The value of `last_size` after all polls. -/
def lastSizeFold : List Obs → Int → Int
  | [], last => last
  | .gone :: rest, last => lastSizeFold rest last
  | .locked :: rest, last => lastSizeFold rest last
  | .size n :: rest, _ => lastSizeFold rest (n : Int)

/-- Three equal positive sizes at the head of the list (the window test of
the spec-side notion below). -/
def threeHere : List Obs → Bool
  | .size a :: .size b :: .size c :: _ => decide (a = b) && decide (b = c) && decide (0 < a)
  | _ => false

def consecScan : List Obs → Bool
  | [] => false
  | o :: rest => threeHere (o :: rest) || consecScan rest

def nonGone : Obs → Bool
  | .gone => false
  | _ => true

/-- Spec-side notion: three consecutive equal, non-zero size readings
somewhere in the polls (gone polls are transparent: they touch neither
`last_size` nor `stable_count`, so they are filtered out). -/
def hasConsec3 (obs : List Obs) : Bool := consecScan (obs.filter nonGone)

example : wait_for_file_stable [.size 5, .size 5, .size 5, .size 5] = true := by decide
example : waitEarly [.size 5, .size 5, .size 5, .size 5] (-1) 0 = true := by decide
example : waitEarly [.size 5, .size 5, .size 5] (-1) 0 = false := by decide
example : wait_for_file_stable [.size 1, .size 2] = true := by decide
example : wait_for_file_stable [.size 1, .size 0] = false := by decide
example : wait_for_file_stable [.size 5, .locked, .size 5, .size 5, .size 5] = true := by decide
example : waitEarly [.size 5, .locked, .size 5, .size 5, .size 5] (-1) 0 = true := by decide
example : wait_for_file_stable [.size 5, .gone, .size 5, .gone, .size 5, .size 5] = true := by decide
example : hasConsec3 [.size 5, .gone, .size 5, .gone, .size 5, .size 6] = true := by decide
example : hasConsec3 [.size 5, .locked, .size 5, .size 5, .size 6] = false := by decide

/-! ## Concrete example objects used by the attestation theorems -/

def cfg0 : Cfg :=
  { watchPaths := [["c:", "watch"]],
    quarantineFolder := ["c:", "base", "quarantine"],
    tempTestFolder := ["c:", "base", "temp_test_files"],
    watchFolder := ["c:", "watch"] }

def report : FPath := ["c:", "watch", "report.txt"]

def st0 : St :=
  { fs := { files := [(report, some "confidential".data)], dirs := [["c:", "watch"]] },
    alerts := [],
    whitelist := [],
    processed := [],
    policyMode := "block" }

def alert0 : Alert :=
  { file := report, rule := "Confidential", time := 0, status := "block",
    origin := none, originalPath := some report, fileSize := none }

/-! ## Claim C1 -/

/-- Claim C1: for every file-system event whose path, after canonicalization
(absolute form, lowercased), is not contained under any configured watched
root, `_handle_file` returns at the scope guard: the whole state — the
filesystem, the alert list, the whitelist, the processed cache and the
policy mode — is unchanged, so nothing is read, classified, moved or
deleted. -/
theorem handle_file_out_of_scope (cfg : Cfg) (st : St) (p : FPath) (now : Nat)
    (h : inScope cfg p = false) : handle_file cfg st p now = st := by
  simp [handle_file, stepThread, h]

theorem handle_file_out_of_scope_witness :
    inScope cfg0 ["d:", "other", "x.txt"] = false ∧
    handle_file cfg0 st0 ["d:", "other", "x.txt"] 5 = st0 :=
  ⟨by decide, handle_file_out_of_scope cfg0 st0 ["d:", "other", "x.txt"] 5 (by decide)⟩

/-! ## Claim C6 -/

/-- Claim C6: after every `add_alert` the stored alert list holds at most 200
entries, the new entry sits at the front (newest-first order) followed by
the first 199 old entries; when 200 entries are already present the oldest
(last) entry is evicted and all newer entries remain in place. -/
theorem add_alert_capacity (st : St) (a : Alert) :
    (add_alert st a).alerts.length ≤ 200
  ∧ (add_alert st a).alerts = a :: st.alerts.take 199
  ∧ (st.alerts.length = 200 → (add_alert st a).alerts = a :: st.alerts.dropLast) := by
  refine ⟨?_, ?_, ?_⟩
  · simp [add_alert]
  · show (a :: st.alerts).take (199 + 1) = a :: st.alerts.take 199
    rw [List.take_succ_cons]
  · intro h
    show (a :: st.alerts).take (199 + 1) = a :: st.alerts.dropLast
    rw [List.take_succ_cons, List.dropLast_eq_take, h]

def stFull : St := { st0 with alerts := List.replicate 200 alert0 }

theorem add_alert_capacity_witness :
    (add_alert stFull alert0).alerts = alert0 :: stFull.alerts.dropLast :=
  (add_alert_capacity stFull alert0).2.2
    (show (List.replicate 200 alert0).length = 200 from List.length_replicate 200 alert0)

/-! ## Handler step lemmas -/

theorem recently_false_state (st : St) (p : FPath) (now : Nat)
    (h : (is_recently_processed st p now).1 = false) :
    (is_recently_processed st p now).2 =
      { st with processed := gcProcessed st.processed now } := by
  unfold is_recently_processed at h ⊢
  generalize lookupProc st.processed (normLower p) = x at h ⊢
  cases x with
  | none => simp
  | some t =>
    by_cases hc : t ≠ 0 ∧ now - t < PROCESSED_TTL
    · simp [hc] at h
    · simp [hc]

/-- When all guards pass, the start phase only runs the cache sweep and hands
the path to classification. -/
theorem step_start_eligible (cfg : Cfg) (st : St) (p : FPath) (now : Nat)
    (h1 : inScope cfg p = true)
    (h2 : is_temp_test_path cfg st.fs p = false)
    (h3 : is_quarantine_path cfg p = false)
    (h4 : (is_recently_processed st p now).1 = false)
    (h5 : existsPath st.fs p = true)
    (h6 : is_whitelisted cfg st p = false)
    (h7 : looks_like_quarantine_name p = false) :
    stepThread cfg st .start p now =
      ({ st with processed := gcProcessed st.processed now }, .classify) := by
  have hst := recently_false_state st p now h4
  have h6' : st.whitelist.any (fun w => w.isPrefixOf p) = false := by
    simpa [is_whitelisted, h3] using h6
  simp [stepThread, h1, h2, h3, h4, hst, h5, is_whitelisted, h3, h6', h7]

theorem step_classify_some (cfg : Cfg) (st : St) (p : FPath) (now : Nat) (r : String)
    (h : contains_sensitive_data cfg st.fs p = some r) :
    stepThread cfg st .classify p now = (st, .act r) := by
  simp [stepThread, h]

/-- On an eligible, readable file, classification is exactly the sampled
content classifier. -/
theorem contains_eligible (cfg : Cfg) (fs : FSys) (p : FPath) (content : List Char)
    (h2 : is_temp_test_path cfg fs p = false)
    (h3 : is_quarantine_path cfg p = false)
    (h7 : looks_like_quarantine_name p = false)
    (hget : fsGet fs p = some (some content)) :
    contains_sensitive_data cfg fs p = classifySample content := by
  simp [contains_sensitive_data, h2, h3, h7, hget, existsPath]

theorem take_200_cons {α : Type} (a : α) (l : List α) :
    (a :: l).take 200 = a :: l.take 199 := by
  show (a :: l).take (199 + 1) = a :: l.take 199
  rw [List.take_succ_cons]

/-- The action phase in block mode: mark, record the alert, move the file to
`quarantine/<epoch>_<basename>`, point the fresh alert at the destination,
mark the destination. -/
theorem step_act_block (cfg : Cfg) (st : St) (p : FPath) (now : Nat) (r : String)
    (content : List Char)
    (hmode : st.policyMode = "block")
    (hget : fsGet st.fs p = some (some content)) :
    stepThread cfg st (.act r) p now =
      ({ fs := fsSet (fsRemove st.fs p)
            (cfg.quarantineFolder ++ [Nat.repr now ++ "_" ++ basename p]) (some content),
         alerts :=
           { file := cfg.quarantineFolder ++ [Nat.repr now ++ "_" ++ basename p],
             rule := r, time := now, status := "block",
             origin := identify_origin cfg p, originalPath := some p,
             fileSize := some content.length } :: st.alerts.take 199,
         whitelist := st.whitelist,
         processed := setProc (setProc st.processed (normLower p) now)
           (normLower (cfg.quarantineFolder ++ [Nat.repr now ++ "_" ++ basename p])) now,
         policyMode := st.policyMode }, .done) := by
  simp [stepThread, mark_processed, add_alert, setHeadAlertFile, get_file_size,
    hmode, hget, take_200_cons]

/-- The action phase in warn mode: mark and record the alert, leave the
filesystem untouched. -/
theorem step_act_warn (cfg : Cfg) (st : St) (p : FPath) (now : Nat) (r : String)
    (hmode : st.policyMode = "warn") :
    stepThread cfg st (.act r) p now =
      ({ st with
          alerts :=
            { file := p, rule := r, time := now, status := "warn",
              origin := identify_origin cfg p, originalPath := some p,
              fileSize := get_file_size st.fs p } :: st.alerts.take 199,
          processed := setProc st.processed (normLower p) now }, .done) := by
  simp [stepThread, mark_processed, add_alert, hmode, take_200_cons]

/-! ## Claim C2 -/

/-- Claim C2: for every event on an eligible path (in scope, not
temp/quarantine-internal, not deduplicated, not whitelisted, not
quarantine-named) whose readable content classifies as rule `R` while the
policy mode is `"block"`, the handler appends exactly one alert with
`rule = R` and `status = "block"`, moves the file into the quarantine folder
under the name `<epoch>_<original-basename>` (the move succeeding since the
source exists), and updates the fresh alert's `file` field to that
quarantine destination; no other alert and no other file is touched. -/
theorem handle_file_block_quarantine (cfg : Cfg) (st : St) (p : FPath) (now : Nat)
    (R : String) (content : List Char)
    (h1 : inScope cfg p = true)
    (h2 : is_temp_test_path cfg st.fs p = false)
    (h3 : is_quarantine_path cfg p = false)
    (h4 : (is_recently_processed st p now).1 = false)
    (h6 : is_whitelisted cfg st p = false)
    (h7 : looks_like_quarantine_name p = false)
    (hget : fsGet st.fs p = some (some content))
    (hcl : classifySample content = some R)
    (hmode : st.policyMode = "block") :
    handle_file cfg st p now =
      { fs := fsSet (fsRemove st.fs p)
          (cfg.quarantineFolder ++ [Nat.repr now ++ "_" ++ basename p]) (some content),
        alerts :=
          { file := cfg.quarantineFolder ++ [Nat.repr now ++ "_" ++ basename p],
            rule := R, time := now, status := "block",
            origin := identify_origin cfg p, originalPath := some p,
            fileSize := some content.length } :: st.alerts.take 199,
        whitelist := st.whitelist,
        processed := setProc (setProc (gcProcessed st.processed now) (normLower p) now)
          (normLower (cfg.quarantineFolder ++ [Nat.repr now ++ "_" ++ basename p])) now,
        policyMode := st.policyMode } := by
  have h5 : existsPath st.fs p = true := by simp [existsPath, hget]
  have hs := step_start_eligible cfg st p now h1 h2 h3 h4 h5 h6 h7
  have hcont : contains_sensitive_data cfg st.fs p = some R := by
    rw [contains_eligible cfg st.fs p content h2 h3 h7 hget, hcl]
  have hc2 := step_classify_some cfg { st with processed := gcProcessed st.processed now }
    p now R hcont
  have ha := step_act_block cfg { st with processed := gcProcessed st.processed now }
    p now R content hmode hget
  unfold handle_file
  rw [hs]
  dsimp only
  rw [hc2]
  dsimp only
  rw [ha]

theorem handle_file_block_quarantine_witness :
    handle_file cfg0 st0 report 7 =
      { fs := fsSet (fsRemove st0.fs report)
          (cfg0.quarantineFolder ++ [Nat.repr 7 ++ "_" ++ basename report])
          (some "confidential".data),
        alerts :=
          { file := cfg0.quarantineFolder ++ [Nat.repr 7 ++ "_" ++ basename report],
            rule := "Confidential", time := 7, status := "block",
            origin := identify_origin cfg0 report, originalPath := some report,
            fileSize := some "confidential".data.length } :: st0.alerts.take 199,
        whitelist := st0.whitelist,
        processed := setProc (setProc (gcProcessed st0.processed 7) (normLower report) 7)
          (normLower (cfg0.quarantineFolder ++ [Nat.repr 7 ++ "_" ++ basename report])) 7,
        policyMode := st0.policyMode } :=
  handle_file_block_quarantine cfg0 st0 report 7 "Confidential" "confidential".data
    (by decide) (by decide) (by decide) (by decide) (by decide) (by decide)
    (by decide) (by decide) (by decide)

/-! ## Claim C9 -/

/-- Claim C9: for every event on an eligible path whose readable content
matches a rule while the policy mode is `"warn"`, the handler appends
exactly one alert with `status = "warn"` and leaves the filesystem — and in
particular the file itself — completely untouched: only the alert list and
the processed cache change. -/
theorem handle_file_warn_leaves_file (cfg : Cfg) (st : St) (p : FPath) (now : Nat)
    (R : String) (content : List Char)
    (h1 : inScope cfg p = true)
    (h2 : is_temp_test_path cfg st.fs p = false)
    (h3 : is_quarantine_path cfg p = false)
    (h4 : (is_recently_processed st p now).1 = false)
    (h6 : is_whitelisted cfg st p = false)
    (h7 : looks_like_quarantine_name p = false)
    (hget : fsGet st.fs p = some (some content))
    (hcl : classifySample content = some R)
    (hmode : st.policyMode = "warn") :
    handle_file cfg st p now =
      { st with
        alerts :=
          { file := p, rule := R, time := now, status := "warn",
            origin := identify_origin cfg p, originalPath := some p,
            fileSize := some content.length } :: st.alerts.take 199,
        processed := setProc (gcProcessed st.processed now) (normLower p) now } := by
  have h5 : existsPath st.fs p = true := by simp [existsPath, hget]
  have hs := step_start_eligible cfg st p now h1 h2 h3 h4 h5 h6 h7
  have hcont : contains_sensitive_data cfg st.fs p = some R := by
    rw [contains_eligible cfg st.fs p content h2 h3 h7 hget, hcl]
  have hc2 := step_classify_some cfg { st with processed := gcProcessed st.processed now }
    p now R hcont
  have ha := step_act_warn cfg { st with processed := gcProcessed st.processed now }
    p now R hmode
  have hsize : get_file_size st.fs p = some content.length := by
    simp [get_file_size, hget]
  unfold handle_file
  rw [hs]
  dsimp only
  rw [hc2]
  dsimp only
  rw [ha]
  dsimp only
  rw [hsize]

def stWarn : St := { st0 with policyMode := "warn" }

theorem handle_file_warn_leaves_file_witness :
    handle_file cfg0 stWarn report 7 =
      { stWarn with
        alerts :=
          { file := report, rule := "Confidential", time := 7, status := "warn",
            origin := identify_origin cfg0 report, originalPath := some report,
            fileSize := some "confidential".data.length } :: stWarn.alerts.take 199,
        processed := setProc (gcProcessed stWarn.processed 7) (normLower report) 7 } :=
  handle_file_warn_leaves_file cfg0 stWarn report 7 "Confidential" "confidential".data
    (by decide) (by decide) (by decide) (by decide) (by decide) (by decide)
    (by decide) (by decide) (by decide)

/-! ## Preservation when no rule fires -/

theorem recently_true_state (st : St) (p : FPath) (now : Nat)
    (h : (is_recently_processed st p now).1 = true) :
    (is_recently_processed st p now).2 = st := by
  unfold is_recently_processed at h ⊢
  generalize lookupProc st.processed (normLower p) = x at h ⊢
  cases x with
  | none => simp at h
  | some t =>
    by_cases hc : t ≠ 0 ∧ now - t < PROCESSED_TTL
    · simp [hc]
    · simp [hc] at h

/-- Whenever classification reports no rule, a handler run can only touch the
processed cache: the filesystem, the alerts, the whitelist and the policy
mode are unchanged (whatever guard or classification branch terminates it). -/
theorem handle_file_no_rule (cfg : Cfg) (st : St) (p : FPath) (now : Nat)
    (h : contains_sensitive_data cfg st.fs p = none) :
    (handle_file cfg st p now).fs = st.fs
  ∧ (handle_file cfg st p now).alerts = st.alerts
  ∧ (handle_file cfg st p now).whitelist = st.whitelist
  ∧ (handle_file cfg st p now).policyMode = st.policyMode := by
  cases h1 : inScope cfg p with
  | false => simp [handle_file, stepThread, h1]
  | true =>
    cases h2 : is_temp_test_path cfg st.fs p with
    | true => simp [handle_file, stepThread, h1, h2]
    | false =>
      cases h3 : is_quarantine_path cfg p with
      | true => simp [handle_file, stepThread, h1, h2, h3]
      | false =>
        cases h4 : (is_recently_processed st p now).1 with
        | true =>
          have hst := recently_true_state st p now h4
          simp [handle_file, stepThread, h1, h2, h3, h4, hst]
        | false =>
          have hst := recently_false_state st p now h4
          cases h5 : existsPath st.fs p with
          | false =>
            simp [handle_file, stepThread, h1, h2, h3, h4, hst, h5, mark_processed]
          | true =>
            cases h6 : st.whitelist.any (fun w => w.isPrefixOf p) with
            | true =>
              simp [handle_file, stepThread, h1, h2, h3, h4, hst, h5,
                is_whitelisted, h6, mark_processed]
            | false =>
              cases h7 : looks_like_quarantine_name p with
              | true =>
                simp [handle_file, stepThread, h1, h2, h3, h4, hst, h5,
                  is_whitelisted, h3, h6, h7, mark_processed]
              | false =>
                simp [handle_file, stepThread, h1, h2, h3, h4, hst, h5,
                  is_whitelisted, h3, h6, h7, h, mark_processed]

/-! ## Claim C8 -/

/-- Claim C8: a path whose basename begins with digits followed by an
underscore (the quarantine naming convention) is never classified — the
classifier itself reports no rule for it — and a handler run for it never
creates an alert, never moves a file and never touches whitelist or policy,
even when the path lies under a watched root outside the quarantine
folder. -/
theorem quarantine_named_never_processed (cfg : Cfg) (st : St) (p : FPath) (now : Nat)
    (h : looks_like_quarantine_name p = true) :
    contains_sensitive_data cfg st.fs p = none
  ∧ (handle_file cfg st p now).fs = st.fs
  ∧ (handle_file cfg st p now).alerts = st.alerts
  ∧ (handle_file cfg st p now).whitelist = st.whitelist
  ∧ (handle_file cfg st p now).policyMode = st.policyMode := by
  have hc : contains_sensitive_data cfg st.fs p = none := by
    simp [contains_sensitive_data, h]
  have hp := handle_file_no_rule cfg st p now hc
  exact ⟨hc, hp.1, hp.2.1, hp.2.2.1, hp.2.2.2⟩

def leftover : FPath := ["c:", "watch", "1700000000_leftover.txt"]

theorem quarantine_named_never_processed_witness :
    contains_sensitive_data cfg0 st0.fs leftover = none
  ∧ (handle_file cfg0 st0 leftover 7).fs = st0.fs
  ∧ (handle_file cfg0 st0 leftover 7).alerts = st0.alerts
  ∧ (handle_file cfg0 st0 leftover 7).whitelist = st0.whitelist
  ∧ (handle_file cfg0 st0 leftover 7).policyMode = st0.policyMode :=
  quarantine_named_never_processed cfg0 st0 leftover 7 (by decide)

/-! ## Claim C10 -/

/-- Claim C10: `contains_sensitive_data` is total over the model: for a path
that does not exist as a readable file — absent, a bare directory, or a
present file whose open/read raises — it returns `none`, and a handler run
on such a path yields no alert, no warning record and no quarantine action:
the filesystem, alerts, whitelist and policy mode are all unchanged. -/
theorem contains_sensitive_data_unreadable (cfg : Cfg) (st : St) (p : FPath) (now : Nat)
    (h : fsGet st.fs p = none ∨ fsGet st.fs p = some none) :
    contains_sensitive_data cfg st.fs p = none
  ∧ (handle_file cfg st p now).fs = st.fs
  ∧ (handle_file cfg st p now).alerts = st.alerts
  ∧ (handle_file cfg st p now).whitelist = st.whitelist
  ∧ (handle_file cfg st p now).policyMode = st.policyMode := by
  have hc : contains_sensitive_data cfg st.fs p = none := by
    rcases h with h | h <;> simp [contains_sensitive_data, h]
  have hp := handle_file_no_rule cfg st p now hc
  exact ⟨hc, hp.1, hp.2.1, hp.2.2.1, hp.2.2.2⟩

def lockedFile : FPath := ["c:", "watch", "locked.txt"]

def stLocked : St :=
  { st0 with fs := { files := [(lockedFile, none)], dirs := [["c:", "watch"]] } }

theorem contains_sensitive_data_unreadable_witness :
    contains_sensitive_data cfg0 stLocked.fs lockedFile = none
  ∧ (handle_file cfg0 stLocked lockedFile 7).fs = stLocked.fs
  ∧ (handle_file cfg0 stLocked lockedFile 7).alerts = stLocked.alerts
  ∧ (handle_file cfg0 stLocked lockedFile 7).whitelist = stLocked.whitelist
  ∧ (handle_file cfg0 stLocked lockedFile 7).policyMode = stLocked.policyMode :=
  contains_sensitive_data_unreadable cfg0 stLocked lockedFile 7 (Or.inr (by decide))

/-! ## Claim C4 -/

theorem takeChars_length : ∀ (l : List Char) (n : Nat), (takeChars l n).length ≤ n := by
  intro l
  induction l with
  | nil => intro n; simp [takeChars]
  | cons c cs ih =>
    intro n
    cases n with
    | zero => simp [takeChars]
    | succ m => simpa [takeChars] using ih m

/-- First-match characterization of `List.find?`. -/
theorem find?_first_iff {α : Type} (q : α → Bool) :
    ∀ (l : List α) (x : α),
      l.find? q = some x ↔
        ∃ i, l.get? i = some x ∧ q x = true ∧
          ∀ j, j < i → ∀ y, l.get? j = some y → q y = false := by
  intro l
  induction l with
  | nil => intro x; simp
  | cons a t ih =>
    intro x
    by_cases ha : q a = true
    · rw [List.find?_cons_of_pos _ ha]
      constructor
      · intro h
        cases h
        exact ⟨0, by simp, ha, by intro j hj; omega⟩
      · rintro ⟨i, hget, hqx, he⟩
        cases i with
        | zero => simp at hget; rw [hget]
        | succ k => exact absurd ha (by simpa using he 0 (Nat.succ_pos k) a (by simp))
    · rw [List.find?_cons_of_neg _ ha]
      rw [ih x]
      constructor
      · rintro ⟨i, hget, hqx, he⟩
        refine ⟨i + 1, by simpa using hget, hqx, ?_⟩
        intro j hj y hy
        cases j with
        | zero =>
          simp at hy
          rw [← hy]
          exact Bool.not_eq_true _ ▸ (by simpa using ha)
        | succ k => exact he k (by omega) y (by simpa using hy)
      · rintro ⟨i, hget, hqx, he⟩
        cases i with
        | zero =>
          simp at hget
          rw [← hget] at hqx
          exact absurd hqx ha
        | succ k =>
          exact ⟨k, by simpa using hget, hqx,
            fun j hj y hy => he (j + 1) (by omega) y (by simpa using hy)⟩

/-- Claim C4: classification samples at most a 5 MiB prefix of the content —
the sample is capped and the result depends only on that prefix — and
returns the label of the first rule, in the fixed `PATTERNS` iteration
order, whose (case-insensitive) pattern matches the sample; when no rule
matches the sample it returns `none`. -/
theorem classifier_first_match :
    (∀ c : List Char, (takeChars c SAMPLE_CAP).length ≤ SAMPLE_CAP)
  ∧ (∀ c₁ c₂ : List Char, takeChars c₁ SAMPLE_CAP = takeChars c₂ SAMPLE_CAP →
      classifySample c₁ = classifySample c₂)
  ∧ (∀ (c : List Char) (L : String),
      classifySample c = some L ↔
        ∃ i lbl m, PATTERNS.get? i = some (lbl, m) ∧ lbl = L ∧
          m (takeChars c SAMPLE_CAP) = true ∧
          ∀ j, j < i → ∀ lbl2 m2, PATTERNS.get? j = some (lbl2, m2) →
            m2 (takeChars c SAMPLE_CAP) = false)
  ∧ (∀ c : List Char, classifySample c = none ↔
      ∀ r ∈ PATTERNS, r.2 (takeChars c SAMPLE_CAP) = false) := by
  refine ⟨fun c => takeChars_length c SAMPLE_CAP, ?_, ?_, ?_⟩
  · intro c₁ c₂ h
    unfold classifySample
    rw [h]
  · intro c L
    unfold classifySample classifyContent
    constructor
    · intro h
      obtain ⟨pair, hfind, hL⟩ := Option.map_eq_some'.1 h
      obtain ⟨i, hget, hq, he⟩ := (find?_first_iff _ _ _).1 hfind
      exact ⟨i, pair.1, pair.2, by simpa using hget, hL, hq,
        fun j hj lbl2 m2 hg => he j hj (lbl2, m2) hg⟩
    · rintro ⟨i, lbl, m, hget, rfl, hm, he⟩
      apply Option.map_eq_some'.2
      refine ⟨(lbl, m), (find?_first_iff _ _ _).2 ⟨i, hget, hm, ?_⟩, rfl⟩
      intro j hj y hy
      exact he j hj y.1 y.2 (by simpa using hy)
  · intro c
    unfold classifySample classifyContent
    rw [Option.map_eq_none']
    rw [List.find?_eq_none]
    constructor
    · intro h r hr
      simpa using h r hr
    · intro h r hr
      simp [h r hr]

theorem classifier_first_match_witness :
    classifySample "no personal data in this file".data = none :=
  (classifier_first_match.2.2.2 "no personal data in this file".data).mpr (by decide)

/-! ## Claim C7 -/

theorem fsGet_remove_self (fs : FSys) (p : FPath) : fsGet (fsRemove fs p) p = none := by
  unfold fsGet fsRemove
  suffices h : ∀ l : List (FPath × Option (List Char)),
      (l.filter (fun e => !(e.1 == p))).find? (fun e => e.1 == p) = none by
    simp [h]
  intro l
  induction l with
  | nil => simp
  | cons a t ih =>
    cases ha : (a.1 == p) with
    | true => simp [List.filter_cons, ha, ih]
    | false => simp [List.filter_cons, ha, List.find?_cons_of_neg, ih]

theorem fsGet_set_ne (fs : FSys) (p q : FPath) (c : Option (List Char))
    (h : (p == q) = false) : fsGet (fsSet fs p c) q = fsGet (fsRemove fs p) q := by
  unfold fsGet fsSet
  rw [List.find?_cons_of_neg]
  simp [h]

theorem fsGet_remove_ne (fs : FSys) (q p : FPath) (h : (q == p) = false) :
    fsGet (fsRemove fs q) p = fsGet fs p := by
  unfold fsGet fsRemove
  suffices h2 : ∀ l : List (FPath × Option (List Char)),
      (l.filter (fun e => !(e.1 == q))).find? (fun e => e.1 == p)
        = l.find? (fun e => e.1 == p) by simp [h2]
  intro l
  induction l with
  | nil => simp
  | cons a t ih =>
    cases hq : (a.1 == q) with
    | true =>
      have hap : (a.1 == p) = false := by
        have haq : a.1 = q := by simpa using hq
        rw [haq]
        exact h
      simp [List.filter_cons, hq, List.find?_cons_of_neg, hap, ih]
    | false =>
      cases hap : (a.1 == p) with
      | true =>
        simp [List.filter_cons, hq, List.find?_cons_of_pos, hap]
      | false =>
        simp [List.filter_cons, hq, List.find?_cons_of_neg, hap, ih]

theorem allow_file_noop (cfg : Cfg) (st : St) (fpath : FPath) (now : Nat)
    (h : existsPath st.fs fpath = false) : allow_file cfg st fpath now = st := by
  cases hE : fpath.isEmpty <;> simp [allow_file, hE, h]

theorem allow_file_restore (cfg : Cfg) (st : St) (fpath : FPath) (now : Nat)
    (op : FPath) (c : Option (List Char))
    (hE : fpath.isEmpty = false)
    (hget : fsGet st.fs fpath = some c)
    (ho : firstAlertOriginal st fpath = some op)
    (hd : existsPath st.fs op.dropLast = true) :
    allow_file cfg st fpath now =
      { st with
        fs := fsSet (fsRemove st.fs fpath) op c,
        whitelist := if st.whitelist.contains op then st.whitelist
          else st.whitelist ++ [op],
        alerts := st.alerts.filter (fun a => !(a.file == fpath)),
        processed := setProc st.processed (normLower op) now } := by
  have hex : existsPath st.fs fpath = true := by simp [existsPath, hget]
  simp [allow_file, hE, hex, ho, hd, hget, moveFile, mark_processed]

theorem allow_file_fallback (cfg : Cfg) (st : St) (fpath : FPath) (now : Nat)
    (c : Option (List Char))
    (hE : fpath.isEmpty = false)
    (hget : fsGet st.fs fpath = some c)
    (ho : firstAlertOriginal st fpath = none ∨
      (∃ op, firstAlertOriginal st fpath = some op ∧ existsPath st.fs op.dropLast = false)) :
    allow_file cfg st fpath now =
      { st with
        fs := fsSet (fsRemove st.fs fpath) (cfg.watchFolder ++ [basename fpath]) c,
        whitelist := if st.whitelist.contains (cfg.watchFolder ++ [basename fpath])
          then st.whitelist else st.whitelist ++ [cfg.watchFolder ++ [basename fpath]],
        alerts := st.alerts.filter (fun a => !(a.file == fpath)),
        processed := setProc st.processed (normLower (cfg.watchFolder ++ [basename fpath])) now } := by
  have hex : existsPath st.fs fpath = true := by simp [existsPath, hget]
  rcases ho with ho | ⟨op, ho, hd⟩
  · simp [allow_file, hE, hex, ho, hget, moveFile, mark_processed]
  · simp [allow_file, hE, hex, ho, hd, hget, moveFile, mark_processed]

/-- Claim C7: restoring (`allow_file`) an existing quarantined file moves it
back to exactly its recorded original path when the directory of that path
exists, otherwise to the primary watch folder under its basename; the
destination ends up in the whitelist; every alert referencing the
quarantined path is removed; and a second restore for the same, now absent,
quarantined path changes no state and reports no error. -/
theorem allow_file_spec (cfg : Cfg) (st : St) (fpath : FPath) (now : Nat) :
    (existsPath st.fs fpath = false → allow_file cfg st fpath now = st)
  ∧ (∀ op c, fpath.isEmpty = false → fsGet st.fs fpath = some c →
      firstAlertOriginal st fpath = some op → existsPath st.fs op.dropLast = true →
      allow_file cfg st fpath now =
        { st with
          fs := fsSet (fsRemove st.fs fpath) op c,
          whitelist := if st.whitelist.contains op then st.whitelist
            else st.whitelist ++ [op],
          alerts := st.alerts.filter (fun a => !(a.file == fpath)),
          processed := setProc st.processed (normLower op) now })
  ∧ (∀ c, fpath.isEmpty = false → fsGet st.fs fpath = some c →
      (firstAlertOriginal st fpath = none ∨
        (∃ op, firstAlertOriginal st fpath = some op ∧
          existsPath st.fs op.dropLast = false)) →
      allow_file cfg st fpath now =
        { st with
          fs := fsSet (fsRemove st.fs fpath) (cfg.watchFolder ++ [basename fpath]) c,
          whitelist := if st.whitelist.contains (cfg.watchFolder ++ [basename fpath])
            then st.whitelist else st.whitelist ++ [cfg.watchFolder ++ [basename fpath]],
          alerts := st.alerts.filter (fun a => !(a.file == fpath)),
          processed := setProc st.processed
            (normLower (cfg.watchFolder ++ [basename fpath])) now })
  ∧ (∀ op c now2, fpath.isEmpty = false → fsGet st.fs fpath = some c →
      firstAlertOriginal st fpath = some op → existsPath st.fs op.dropLast = true →
      (op == fpath) = false → st.fs.dirs.contains fpath = false →
      allow_file cfg (allow_file cfg st fpath now) fpath now2
        = allow_file cfg st fpath now) := by
  refine ⟨allow_file_noop cfg st fpath now,
    fun op c hE hget ho hd => allow_file_restore cfg st fpath now op c hE hget ho hd,
    fun c hE hget ho => allow_file_fallback cfg st fpath now c hE hget ho, ?_⟩
  intro op c now2 hE hget ho hd hne hdir
  rw [allow_file_restore cfg st fpath now op c hE hget ho hd]
  apply allow_file_noop
  show existsPath (fsSet (fsRemove st.fs fpath) op c) fpath = false
  rw [existsPath, fsGet_set_ne _ _ _ _ hne, fsGet_remove_ne _ _ _ hne, fsGet_remove_self]
  simp [fsSet, fsRemove]
  simpa using hdir

def quarFile : FPath := ["c:", "base", "quarantine", "1700_report.txt"]

def stQuar : St :=
  { fs := { files := [(quarFile, some "confidential".data)], dirs := [["c:", "watch"]] },
    alerts := [{ file := quarFile, rule := "Confidential", time := 3, status := "block",
                 origin := some ["c:", "watch"], originalPath := some report,
                 fileSize := some 12 }],
    whitelist := [],
    processed := [],
    policyMode := "block" }

theorem allow_file_spec_witness :
    allow_file cfg0 stQuar quarFile 9 =
      { stQuar with
        fs := fsSet (fsRemove stQuar.fs quarFile) report (some "confidential".data),
        whitelist := if stQuar.whitelist.contains report then stQuar.whitelist
          else stQuar.whitelist ++ [report],
        alerts := stQuar.alerts.filter (fun a => !(a.file == quarFile)),
        processed := setProc stQuar.processed (normLower report) 9 } :=
  (allow_file_spec cfg0 stQuar quarFile 9).2.1 report "confidential".data
    (by decide) (by decide) (by decide) (by decide)

/-! ## Claim C5 -/

/-- Claim C5 evaluated on its failing input: the entry deduplication check
`_is_recently_processed` only reads the cache — the mark is inserted by
`_mark_processed` only after classification succeeds — so two simultaneous
events for the same sensitive path can both pass the check, both classify,
and both act: the interleaving guard-A, guard-B, classify-A, classify-B,
act-A, act-B of two handler runs for the same path produces TWO alerts (the
second quarantine move fails benignly, its exception being caught), refuting
"at most one proceeds past the deduplicator, so exactly one alert ...
results".  Sequential events within the TTL are deduplicated: after one
completed handler run, a second event one second later changes nothing. -/
theorem dedup_race_two_alerts :
    (runTwo cfg0 [false, true, false, true, false, true]
        st0 .start .start report 5).alerts.length = 2
  ∧ handle_file cfg0 (handle_file cfg0 st0 report 5) report 6
      = handle_file cfg0 st0 report 5 := by decide

/-! ## Claim C3: stability lemmas -/

theorem consecScan_cons (o : Obs) (r : List Obs) (h : consecScan r = true) :
    consecScan (o :: r) = true := by
  simp [consecScan, h]

theorem consecScan_append (xs l : List Obs) (h : consecScan l = true) :
    consecScan (xs ++ l) = true := by
  induction xs with
  | nil => simpa using h
  | cons x t ih => exact consecScan_cons x (t ++ l) ih

theorem consecScan_three (n : Nat) (hn : 0 < n) (l : List Obs) :
    consecScan (Obs.size n :: Obs.size n :: Obs.size n :: l) = true := by
  simp [consecScan, threeHere, hn]

theorem filter_nonGone_gone (rest : List Obs) :
    (Obs.gone :: rest).filter nonGone = rest.filter nonGone := by
  simp [nonGone]

theorem filter_nonGone_locked (rest : List Obs) :
    (Obs.locked :: rest).filter nonGone = Obs.locked :: rest.filter nonGone := by
  simp [nonGone]

theorem filter_nonGone_size (n : Nat) (rest : List Obs) :
    (Obs.size n :: rest).filter nonGone = Obs.size n :: rest.filter nonGone := by
  simp [nonGone]

theorem replicate_append_cons {α : Type} (k : Nat) (x : α) (l : List α) :
    List.replicate k x ++ x :: l = List.replicate (k + 1) x ++ l := by
  rw [List.replicate_succ', List.append_assoc]
  rfl

/-- Invariant of the early-stability scan: an early `True` from a state in
which the previous reading was size `m` with `cnt` consecutive confirmations
implies three consecutive equal positive readings once the virtual head
start is restored. -/
theorem waitEarly_consec : ∀ (obs : List Obs) (m cnt : Nat),
    waitEarly obs (m : Int) cnt = true →
    consecScan (List.replicate cnt (Obs.size m) ++ obs.filter nonGone) = true := by
  intro obs
  induction obs with
  | nil => intro m cnt h; simp [waitEarly] at h
  | cons o rest ih =>
    intro m cnt h
    cases o with
    | gone =>
      rw [filter_nonGone_gone]
      exact ih m cnt (by simpa [waitEarly] using h)
    | locked =>
      have h2 := ih m 0 (by simpa [waitEarly] using h)
      rw [filter_nonGone_locked, List.append_cons]
      exact consecScan_append _ _ (by simpa using h2)
    | size n =>
      rw [filter_nonGone_size]
      simp only [waitEarly] at h
      by_cases hc : (n : Int) = (m : Int) ∧ 0 < n
      · rw [if_pos hc] at h
        have hnm : n = m := by exact_mod_cast hc.1
        subst hnm
        by_cases h3 : 3 ≤ cnt + 1
        · obtain ⟨k, rfl⟩ : ∃ k, cnt = k + 2 := ⟨cnt - 2, by omega⟩
          rw [show List.replicate (k + 2) (Obs.size n)
              = Obs.size n :: Obs.size n :: List.replicate k (Obs.size n) by
            simp [List.replicate_succ]]
          cases k with
          | zero => simpa using consecScan_three n hc.2 (rest.filter nonGone)
          | succ k2 =>
            rw [List.replicate_succ]
            exact consecScan_three n hc.2 _
        · rw [if_neg h3] at h
          have h2 := ih n (cnt + 1) h
          rw [replicate_append_cons]
          exact h2
      · rw [if_neg hc] at h
        have h2 := ih n 0 h
        rw [List.append_cons]
        exact consecScan_append _ _ (by simpa using h2)

/-- From the initial state (`last_size = -1`, count 0), an early `True`
implies three consecutive equal positive readings among the polls. -/
theorem waitEarly_consec_start : ∀ (obs : List Obs) (last : Int),
    waitEarly obs last 0 = true → consecScan (obs.filter nonGone) = true := by
  intro obs
  induction obs with
  | nil => intro last h; simp [waitEarly] at h
  | cons o rest ih =>
    intro last h
    cases o with
    | gone =>
      rw [filter_nonGone_gone]
      exact ih last (by simpa [waitEarly] using h)
    | locked =>
      rw [filter_nonGone_locked]
      exact consecScan_cons _ _ (ih last (by simpa [waitEarly] using h))
    | size n =>
      rw [filter_nonGone_size]
      simp only [waitEarly] at h
      by_cases hc : (n : Int) = last ∧ 0 < n
      · rw [if_pos hc, if_neg (by omega : ¬ 3 ≤ 0 + 1)] at h
        have h2 := waitEarly_consec rest n 1 h
        simpa using h2
      · rw [if_neg hc] at h
        have h2 := waitEarly_consec rest n 0 h
        exact consecScan_cons _ _ (by simpa using h2)

/-- The loop returns `True` exactly when it either stops early through the
`stable_count >= 3` branch or, exhausting its polls, falls back to
`last_size > 0`. -/
theorem waitLoop_eq_early_or_last : ∀ (obs : List Obs) (last : Int) (cnt : Nat),
    waitLoop obs last cnt = (waitEarly obs last cnt || decide (0 < lastSizeFold obs last)) := by
  intro obs
  induction obs with
  | nil => intro last cnt; simp [waitLoop, waitEarly, lastSizeFold]
  | cons o rest ih =>
    intro last cnt
    cases o with
    | gone => simpa [waitLoop, waitEarly, lastSizeFold] using ih last cnt
    | locked => simpa [waitLoop, waitEarly, lastSizeFold] using ih last 0
    | size n =>
      by_cases hc : (n : Int) = last ∧ 0 < n
      · by_cases h3 : 3 ≤ cnt + 1
        · simp [waitLoop, waitEarly, lastSizeFold, hc, h3]
        · simp only [waitLoop, waitEarly, lastSizeFold, if_pos hc, if_neg h3]
          exact ih (n : Int) (cnt + 1)
      · simp only [waitLoop, waitEarly, lastSizeFold, if_neg hc]
        exact ih (n : Int) 0

/-- Claim C3, amended by the counterexample below: the detector reports
Stable before exhausting its polls only after at least three consecutive
equal non-zero size readings (a transient read failure resets the
consecutive count, as stated in the claim); but when the polls are exhausted
without early stability (the timeout), the call returns `last_size > 0` —
true whenever the last observed size reading was positive — rather than
false. -/
theorem wait_stability_amended :
    (∀ obs : List Obs, waitEarly obs (-1) 0 = true → hasConsec3 obs = true)
  ∧ (∀ (obs : List Obs) (last : Int) (cnt : Nat),
      waitLoop (Obs.locked :: obs) last cnt = waitLoop obs last 0)
  ∧ (∀ obs : List Obs,
      wait_for_file_stable obs
        = (waitEarly obs (-1) 0 || decide (0 < lastSizeFold obs (-1)))) :=
  ⟨fun obs h => waitEarly_consec_start obs (-1) h,
   fun obs last cnt => by simp [waitLoop],
   fun obs => waitLoop_eq_early_or_last obs (-1) 0⟩

/-- Claim C3 as frozen is false on the code: with two polls reading sizes 1
then 2 the timeout elapses without any three consecutive equal non-zero
readings, yet `wait_for_file_stable` returns `true` (its timeout fallback is
`last_size > 0`), not the `false` the claim requires. -/
theorem wait_stability_timeout_counterexample :
    wait_for_file_stable [Obs.size 1, Obs.size 2] = true
  ∧ hasConsec3 [Obs.size 1, Obs.size 2] = false := by decide

theorem wait_stability_amended_witness :
    waitEarly [Obs.size 2, Obs.size 2, Obs.size 2, Obs.size 2] (-1) 0 = true
  ∧ hasConsec3 [Obs.size 2, Obs.size 2, Obs.size 2, Obs.size 2] = true :=
  ⟨by decide, wait_stability_amended.1 [Obs.size 2, Obs.size 2, Obs.size 2, Obs.size 2] (by decide)⟩
